import Mathlib

/-!
Verification development for the FinSense backend (src/backend/app.py and
src/backend/portfolio.py).  The Python code is shallowly embedded over `ℚ`:
machine floats become exact rationals, Python dicts become association lists
with insertion-order update semantics, and external collaborators (yfinance,
pypfopt solves, HTTP providers, the Groq completion service) become explicit
oracle parameters.  Each theorem below settles one claim about the code.
-/

namespace FinSense

/-- Lookup in a Python-dict-like association list: first binding wins
(a dict never holds two bindings for the same key). -/
def dlookup {α : Type} (m : List (String × α)) (k : String) : Option α :=
  match m.find? (fun p => p.1 == k) with
  | some p => some p.2
  | none => none

/-- Python dict assignment `m[k] = v`: overwrite in place if the key exists,
else append at the end (insertion order preserved). -/
def dinsert {α : Type} (m : List (String × α)) (k : String) (v : α) : List (String × α) :=
  if m.any (fun p => p.1 == k) then
    m.map (fun p => if p.1 == k then (k, v) else p)
  else m ++ [(k, v)]

theorem dlookup_cons_self {α : Type} (k : String) (v : α) (l : List (String × α)) :
    dlookup ((k, v) :: l) k = some v := by
  unfold dlookup
  simp [List.find?]

theorem dlookup_cons_ne {α : Type} {k k2 : String} (v : α) (l : List (String × α))
    (h : (k == k2) = false) : dlookup ((k, v) :: l) k2 = dlookup l k2 := by
  unfold dlookup
  simp only [List.find?, h]

/-- Python 3 `round` to an integer: round half to even (banker rounding). -/
def roundHalfEven (x : ℚ) : ℤ :=
  let f := ⌊x⌋
  let r := x - f
  if r < 1/2 then f
  else if r > 1/2 then f + 1
  else if f % 2 = 0 then f else f + 1

/-- Python `round(x, 2)`. -/
def round2 (x : ℚ) : ℚ := (roundHalfEven (100 * x) : ℚ) / 100

theorem roundHalfEven_intCast (n : ℤ) : roundHalfEven (n : ℚ) = n := by
  unfold roundHalfEven
  simp

/-- `round2` is the identity on rationals with at most two decimal places. -/
theorem round2_eq_self {x : ℚ} (n : ℤ) (h : 100 * x = (n : ℚ)) : round2 x = x := by
  unfold round2
  rw [h, roundHalfEven_intCast, ← h]
  field_simp

/- ----------------------------------------------------------------- -/
/- `optimize_portfolio` (src/backend/portfolio.py, lines 61-69):
   building the `allocations` list from `holdings` and `cleaned_weights`. -/

/-- One entry of the `allocations` list returned by `optimize_portfolio`. -/
structure Allocation where
  ticker : String
  current_amount : ℚ
  optimal_weight : ℚ
  optimal_amount : ℚ
  deriving DecidableEq, Repr

/-- The loop at portfolio.py lines 61-69: for each `(ticker, weight)` in
`cleaned_weights` with positive weight, emit an allocation entry whose
`optimal_amount` is `round(holdings[ticker] * weight / cleaned_weights[ticker], 2)`. -/
def buildAllocations (holdings cleaned_weights : List (String × ℚ)) : List Allocation :=
  cleaned_weights.filterMap (fun tw =>
    if 0 < tw.2 then
      some { ticker := tw.1
             current_amount := (dlookup holdings tw.1).getD 0
             optimal_weight := round2 (tw.2 * 100)
             optimal_amount :=
               round2 ((dlookup holdings tw.1).getD 0 * tw.2 / (dlookup cleaned_weights tw.1).getD 0) }
    else none)

theorem dlookup_eq_of_nodup {α : Type} {l : List (String × α)} {k : String} {v : α}
    (hnd : (l.map Prod.fst).Nodup) (hm : (k, v) ∈ l) : dlookup l k = some v := by
  induction l with
  | nil => cases hm
  | cons p rest ih =>
    have hnd2 : p.1 ∉ rest.map Prod.fst ∧ (rest.map Prod.fst).Nodup := by
      simpa using List.nodup_cons.mp hnd
    rcases List.mem_cons.mp hm with hm | hm
    · subst hm
      unfold dlookup
      simp [List.find?]
    · have hne : p.1 ≠ k := by
        intro he
        exact hnd2.1 (List.mem_map.mpr ⟨(k, v), hm, by simp [he]⟩)
      have : (p.1 == k) = false := by simp [hne]
      unfold dlookup
      simp only [List.find?, this]
      exact ih hnd2.2 hm

/-- C9: in `optimize_portfolio`, every returned allocation entry has
`optimal_amount = round(current_amount, 2)`: the entry is computed as
`holdings[ticker] * weight / cleaned_weights[ticker]` while `weight` iterates
over `cleaned_weights` itself, so the quotient is identically 1 and the
reported optimal amount never reflects the optimized weight. -/
theorem C9_optimal_amount_equals_current
    (holdings cw : List (String × ℚ)) (hnd : (cw.map Prod.fst).Nodup)
    (a : Allocation) (ha : a ∈ buildAllocations holdings cw) :
    a.optimal_amount = round2 a.current_amount := by
  rcases List.mem_filterMap.mp ha with ⟨tw, htw, he⟩
  by_cases hpos : 0 < tw.2
  · rw [if_pos hpos] at he
    have hlk : dlookup cw tw.1 = some tw.2 :=
      dlookup_eq_of_nodup hnd (by exact htw)
    have hne : tw.2 ≠ 0 := ne_of_gt hpos
    cases he
    simp only [hlk, Option.getD_some]
    congr 1
    rw [mul_div_assoc, div_self hne, mul_one]
  · rw [if_neg hpos] at he
    cases he

/-- Witness for C9 at a concrete input. -/
theorem C9_optimal_amount_equals_current_witness :
    (Allocation.mk "AAPL" 100 100 100).optimal_amount
      = round2 (Allocation.mk "AAPL" 100 100 100).current_amount :=
  C9_optimal_amount_equals_current [("AAPL", 100)] [("AAPL", 1)] (by simp)
    (Allocation.mk "AAPL" 100 100 100)
    (by norm_num [buildAllocations, dlookup, round2, roundHalfEven, List.find?])

/- ----------------------------------------------------------------- -/
/- `calculate_portfolio_metrics` (src/backend/portfolio.py, lines 88-198).
   External lookups become oracles: `quote` is the yfinance
   `regularMarketPrice` lookup, `sectorOf` the yfinance sector lookup, and
   `histStats` stands for the numerical pipeline on historical data
   (`mean_historical_return` / `sample_cov` / dot products): it receives the
   weight vector the code builds and returns the annualized
   (return %, volatility %) pair, or `none` when `data.empty` holds. -/

/-- One parsed holdings row: `price`/`sector` are `none` when the CSV cell is
absent, empty or NaN (then the code falls back to the external lookup). -/
structure MHolding where
  ticker : String
  amount : ℚ
  price : Option ℚ
  sector : Option String
  deriving DecidableEq, Repr

/-- Price resolution (portfolio.py lines 106-121): CSV price if usable, else
the market quote, else 0. -/
def resolvePrice (quote : String → Option ℚ) (h : MHolding) : ℚ :=
  match h.price with
  | some p => p
  | none => (quote h.ticker).getD 0

/-- Sector resolution (portfolio.py lines 122-131): holding metadata if
present and truthy, else the external lookup, defaulting to "Other". -/
def resolveSector (sectorOf : String → Option String) (h : MHolding) : String :=
  match h.sector with
  | some s => s
  | none => (sectorOf h.ticker).getD "Other"

/-- The `prices` dict keyed by ticker (later duplicate rows overwrite). -/
def pricesDict (quote : String → Option ℚ) (holdings : List MHolding) : List (String × ℚ) :=
  holdings.foldl (fun m h => dinsert m h.ticker (resolvePrice quote h)) []

/-- The `amounts` dict comprehension (portfolio.py line 101). -/
def amountsDict (holdings : List MHolding) : List (String × ℚ) :=
  holdings.foldl (fun m h => dinsert m h.ticker h.amount) []

/-- The `sectors` dict keyed by ticker. -/
def sectorsDict (sectorOf : String → Option String) (holdings : List MHolding) :
    List (String × String) :=
  holdings.foldl (fun m h => dinsert m h.ticker (resolveSector sectorOf h)) []

/-- Dict lookup defaulting to 0, as the code indexes dicts whose keys are
exactly the tickers. -/
def lookup0 (m : List (String × ℚ)) (k : String) : ℚ := (dlookup m k).getD 0

/-- `sum(prices[t] * amounts[t] for t in tickers)` (portfolio.py line 134):
the sum ranges over the ticker LIST (duplicates counted repeatedly) while the
values come from the dicts (last row wins). -/
def computedTotalValue (quote : String → Option ℚ) (holdings : List MHolding) : ℚ :=
  (holdings.map (fun h =>
    lookup0 (pricesDict quote holdings) h.ticker * lookup0 (amountsDict holdings) h.ticker)).sum

/-- Portfolio.py lines 136-142: the override (already a number when present)
replaces the computed sum, and a zero total is then replaced by 1. -/
def effectiveTotal (quote : String → Option ℚ) (holdings : List MHolding)
    (override : Option ℚ) : ℚ :=
  let t1 := override.getD (computedTotalValue quote holdings)
  if t1 = 0 then 1 else t1

/-- The `sector_totals` accumulation loop (portfolio.py lines 145-148). -/
def sectorTotals (quote : String → Option ℚ) (sectorOf : String → Option String)
    (holdings : List MHolding) : List (String × ℚ) :=
  holdings.foldl (fun st h =>
    let sec := (dlookup (sectorsDict sectorOf holdings) h.ticker).getD "Other"
    dinsert st sec ((dlookup st sec).getD 0 +
      lookup0 (pricesDict quote holdings) h.ticker * lookup0 (amountsDict holdings) h.ticker)) []

/-- `len(set(sectors.values()))` (portfolio.py line 152). -/
def distinctSectorCount (sectorOf : String → Option String) (holdings : List MHolding) : ℕ :=
  (((sectorsDict sectorOf holdings).map Prod.snd).dedup).length

/-- The value-weight vector (portfolio.py line 176). -/
def metricWeights (quote : String → Option ℚ) (holdings : List MHolding) (total : ℚ) : List ℚ :=
  holdings.map (fun h =>
    lookup0 (pricesDict quote holdings) h.ticker * lookup0 (amountsDict holdings) h.ticker / total)

/-- Risk classification from annualized volatility % (portfolio.py 184-189). -/
def riskLevel (vol : ℚ) : String :=
  if vol < 10 then "Conservative" else if vol < 18 then "Moderate" else "Aggressive"

/-- The result record of `calculate_portfolio_metrics`. -/
structure PMetrics where
  total_value : ℚ
  expected_return : ℚ
  risk_level : String
  sector_exposure : List (String × ℚ)
  diversification_score : ℕ
  volatility : ℚ
  deriving DecidableEq, Repr

/-- `calculate_portfolio_metrics` (portfolio.py lines 88-198). -/
def calculate_portfolio_metrics (quote : String → Option ℚ)
    (sectorOf : String → Option String) (histStats : Option (List ℚ → ℚ × ℚ))
    (holdings : List MHolding) (total_worth_from_csv : Option ℚ) : PMetrics :=
  if holdings.isEmpty then
    { total_value := 0, expected_return := 0, risk_level := "N/A",
      sector_exposure := [], diversification_score := 0, volatility := 0 }
  else
    let total := effectiveTotal quote holdings total_worth_from_csv
    let exposure := (sectorTotals quote sectorOf holdings).map
      (fun p => (p.1, round2 (100 * p.2 / total)))
    let dscore := min 100 (15 * distinctSectorCount sectorOf holdings + 5 * holdings.length)
    match histStats with
    | none =>
      { total_value := round2 total, expected_return := 0, risk_level := "N/A",
        sector_exposure := exposure, diversification_score := dscore, volatility := 0 }
    | some f =>
      let stats := f (metricWeights quote holdings total)
      { total_value := round2 total, expected_return := round2 stats.1,
        risk_level := riskLevel stats.2, sector_exposure := exposure,
        diversification_score := dscore, volatility := round2 stats.2 }

/-- C8: for every holdings list, `diversification_score` equals
`min(100, 15 * distinct_sector_count + 5 * ticker_count)`, and a holding
whose price is unresolvable (no CSV price, no market quote) has its price
treated as 0 while still being one of the `ticker_count` holdings the
formula counts. -/
theorem C8_diversification_score_formula (quote : String → Option ℚ)
    (sectorOf : String → Option String) (histStats : Option (List ℚ → ℚ × ℚ))
    (holdings : List MHolding) (override : Option ℚ) :
    (calculate_portfolio_metrics quote sectorOf histStats holdings override).diversification_score
      = min 100 (15 * distinctSectorCount sectorOf holdings + 5 * holdings.length)
    ∧ (∀ h : MHolding, h.price = none → quote h.ticker = none →
        resolvePrice quote h = 0) := by
  constructor
  · unfold calculate_portfolio_metrics
    by_cases he : holdings.isEmpty
    · rw [if_pos he]
      have hnil : holdings = [] := by
        cases holdings with
        | nil => rfl
        | cons a l => simp [List.isEmpty] at he
      subst hnil
      simp [distinctSectorCount, sectorsDict]
    · rw [if_neg he]
      cases histStats <;> simp
  · intro h hp hq
    unfold resolvePrice
    rw [hp, hq]
    rfl

/-- Witness for C8 at a concrete input: one holding, one sector, score
`min(100, 15 + 5) = 20`, and an unresolvable price resolves to 0. -/
theorem C8_diversification_score_formula_witness :
    (calculate_portfolio_metrics (fun _ => none) (fun _ => none) none
        [MHolding.mk "AAPL" 2 none none] none).diversification_score = 20
    ∧ resolvePrice (fun _ => none) (MHolding.mk "AAPL" 2 none none) = 0 := by
  have h := C8_diversification_score_formula (fun _ => none) (fun _ => none) none
    [MHolding.mk "AAPL" 2 none none] none
  refine ⟨?_, h.2 (MHolding.mk "AAPL" 2 none none) rfl rfl⟩
  rw [h.1]
  norm_num [distinctSectorCount, sectorsDict, dinsert, resolveSector]

/-- C10: `calculate_portfolio_metrics` never divides by zero: the effective
total (computed sum, or the override when supplied) is replaced by 1 when it
equals 0, before sector exposure and the weight vector are computed, and the
divisions downstream all use that nonzero effective total. -/
theorem C10_no_division_by_zero (quote : String → Option ℚ)
    (sectorOf : String → Option String) (histStats : Option (List ℚ → ℚ × ℚ))
    (holdings : List MHolding) (override : Option ℚ) :
    effectiveTotal quote holdings override ≠ 0
    ∧ (override.getD (computedTotalValue quote holdings) = 0 →
        effectiveTotal quote holdings override = 1)
    ∧ (holdings.isEmpty = false →
        (calculate_portfolio_metrics quote sectorOf histStats holdings override).sector_exposure
          = (sectorTotals quote sectorOf holdings).map
              (fun p => (p.1, round2 (100 * p.2 / effectiveTotal quote holdings override))))
    ∧ (holdings.isEmpty = false → ∀ f, histStats = some f →
        (calculate_portfolio_metrics quote sectorOf histStats holdings override).volatility
          = round2 (f (metricWeights quote holdings (effectiveTotal quote holdings override))).2) := by
  refine ⟨?_, ?_, ?_, ?_⟩
  · unfold effectiveTotal
    by_cases h0 : override.getD (computedTotalValue quote holdings) = 0
    · rw [if_pos h0]; norm_num
    · rw [if_neg h0]; exact h0
  · intro h0
    unfold effectiveTotal
    rw [if_pos h0]
  · intro hne
    unfold calculate_portfolio_metrics
    rw [if_neg (by simp [hne])]
    cases histStats <;> simp
  · intro hne f hf
    subst hf
    unfold calculate_portfolio_metrics
    rw [if_neg (by simp [hne])]

/-- Witness for C10 at a concrete input where the computed total is 0 (a
single holding with unresolvable price): the denominator becomes 1. -/
theorem C10_no_division_by_zero_witness :
    effectiveTotal (fun _ => none) [MHolding.mk "AAPL" 2 none none] none ≠ 0
    ∧ effectiveTotal (fun _ => none) [MHolding.mk "AAPL" 2 none none] none = 1 := by
  have h := C10_no_division_by_zero (fun _ => none) (fun _ => none) none
    [MHolding.mk "AAPL" 2 none none] none
  refine ⟨h.1, h.2.1 ?_⟩
  norm_num [computedTotalValue, pricesDict, amountsDict, dinsert, dlookup, lookup0,
    resolvePrice, List.find?]

/-- C4 counterexample: holdings `[AAPL, amount 1, price 10, sector Tech]`
with `total_worth_override = 20` (a valid positive number).  The computed
per-ticker total is 10, so the claim predicts sector exposure
`Tech = 100 %`; the code divides by the overridden total and reports
`Tech = 50 %`, so the override does NOT replace only the reported total. -/
theorem C4_counterexample :
    (0 : ℚ) < 20
    ∧ (calculate_portfolio_metrics (fun _ => none) (fun _ => none) none
        [MHolding.mk "AAPL" 1 (some 10) (some "Tech")] (some 20)).sector_exposure
      = [("Tech", (50 : ℚ))]
    ∧ [("Tech", (50 : ℚ))] ≠ [("Tech", (100 : ℚ))] := by
  refine ⟨by norm_num, ?_, by norm_num⟩
  norm_num [calculate_portfolio_metrics, effectiveTotal, computedTotalValue, sectorTotals,
    sectorsDict, pricesDict, amountsDict, dinsert, dlookup, lookup0, resolvePrice,
    resolveSector, round2, roundHalfEven, List.find?]

/-- C4 amended: `total_value` is the computed sum of price times amount
unless `total_worth_override` is supplied, in which case the override (any
parsed number, not only a positive one) replaces the total, and sector
exposure percentages and the weight vector are then computed against the
overridden total, not against the computed per-ticker sum. -/
theorem C4_total_override_semantics (quote : String → Option ℚ)
    (sectorOf : String → Option String) (histStats : Option (List ℚ → ℚ × ℚ))
    (holdings : List MHolding) (w : ℚ) (hne : holdings.isEmpty = false) (hw : w ≠ 0) :
    effectiveTotal quote holdings (some w) = w
    ∧ (calculate_portfolio_metrics quote sectorOf histStats holdings (some w)).total_value
      = round2 w
    ∧ (calculate_portfolio_metrics quote sectorOf histStats holdings (some w)).sector_exposure
      = (sectorTotals quote sectorOf holdings).map (fun p => (p.1, round2 (100 * p.2 / w))) := by
  have heff : effectiveTotal quote holdings (some w) = w := by
    unfold effectiveTotal
    simp [hw]
  refine ⟨heff, ?_, ?_⟩
  · unfold calculate_portfolio_metrics
    rw [if_neg (by simp [hne])]
    cases histStats <;> simp [heff]
  · unfold calculate_portfolio_metrics
    rw [if_neg (by simp [hne])]
    cases histStats <;> simp [heff]

/-- Witness for the amended C4 at a concrete input with a NEGATIVE override,
showing the code accepts it: the reported total becomes -5 and the single
Tech sector is reported as `round(100 * 10 / -5, 2) = -200 %`. -/
theorem C4_total_override_semantics_witness :
    effectiveTotal (fun _ => none) [MHolding.mk "AAPL" 1 (some 10) (some "Tech")]
        (some (-5)) = -5
    ∧ (calculate_portfolio_metrics (fun _ => none) (fun _ => none) none
        [MHolding.mk "AAPL" 1 (some 10) (some "Tech")] (some (-5))).total_value
      = round2 (-5)
    ∧ (calculate_portfolio_metrics (fun _ => none) (fun _ => none) none
        [MHolding.mk "AAPL" 1 (some 10) (some "Tech")] (some (-5))).sector_exposure
      = (sectorTotals (fun _ => none) (fun _ => none)
          [MHolding.mk "AAPL" 1 (some 10) (some "Tech")]).map
          (fun p => (p.1, round2 (100 * p.2 / (-5)))) :=
  C4_total_override_semantics (fun _ => none) (fun _ => none) none
    [MHolding.mk "AAPL" 1 (some 10) (some "Tech")] (-5) rfl (by norm_num)

/- ----------------------------------------------------------------- -/
/- The allocation reconciler (src/backend/app.py, lines 813-835): compare
   `optimized_allocation` percentages against `current_allocation`
   percentages and emit Increase/Reduce actions above the 1-point
   materiality threshold. -/

/-- One emitted rebalancing action. -/
structure RAction where
  act : String
  ticker : String
  magnitude : ℚ
  deriving DecidableEq, Repr

/-- `curr_pct_map` (app.py line 815): dict comprehension over the current
allocation, later duplicates overwriting. -/
def currPctMap (current : List (String × ℚ)) : List (String × ℚ) :=
  current.foldl (fun m p => dinsert m p.1 p.2) []

/-- The loop at app.py lines 816-835 over the optimized allocation.
The magnitude carried in the `details` string is `round(diff, 2)` for an
Increase and `abs(round(diff, 2))` for a Reduce. -/
def reconcileActions (currMap : List (String × ℚ)) : List (String × ℚ) → List RAction
  | [] => []
  | (t, p) :: rest =>
    let c := (dlookup currMap t).getD 0
    let d := p - c
    if |d| < 1 then reconcileActions currMap rest
    else if 0 < d then ⟨"Increase", t, round2 d⟩ :: reconcileActions currMap rest
    else ⟨"Reduce", t, |round2 d|⟩ :: reconcileActions currMap rest

/-- Full reconciliation of a current allocation against an optimal one. -/
def reconcile (current optimal : List (String × ℚ)) : List RAction :=
  reconcileActions (currPctMap current) optimal

/-- A rational with at most two decimal places, as produced by `round(x, 2)`
upstream of the reconciler. -/
def TwoDec (x : ℚ) : Prop := ∃ n : ℤ, 100 * x = (n : ℚ)

theorem TwoDec.sub {x y : ℚ} (hx : TwoDec x) (hy : TwoDec y) : TwoDec (x - y) := by
  rcases hx with ⟨n, hn⟩
  rcases hy with ⟨m, hm⟩
  exact ⟨n - m, by push_cast; rw [mul_sub, hn, hm]⟩

theorem TwoDec.round2_fix {x : ℚ} (hx : TwoDec x) : round2 x = x := by
  rcases hx with ⟨n, hn⟩
  exact round2_eq_self n hn

theorem reconcileActions_not_mem (currMap : List (String × ℚ)) (l : List (String × ℚ))
    (t : String) (ht : t ∉ l.map Prod.fst) :
    (reconcileActions currMap l).filter (fun a => a.ticker == t) = [] := by
  induction l with
  | nil => rfl
  | cons q rest ih =>
    have hne : q.1 ≠ t := by
      intro he
      exact ht (by simp [he])
    have ht' : t ∉ rest.map Prod.fst := fun hm => ht (by simp [hm])
    obtain ⟨tq, pq⟩ := q
    unfold reconcileActions
    by_cases h1 : |pq - (dlookup currMap tq).getD 0| < 1
    · rw [if_pos h1]
      exact ih ht'
    · rw [if_neg h1]
      by_cases h2 : 0 < pq - (dlookup currMap tq).getD 0
      · rw [if_pos h2, List.filter_cons_of_neg (by simpa using hne)]
        exact ih ht'
      · rw [if_neg h2, List.filter_cons_of_neg (by simpa using hne)]
        exact ih ht'

theorem reconcileActions_filter_eq (currMap : List (String × ℚ))
    (l : List (String × ℚ)) (hnd : (l.map Prod.fst).Nodup)
    (t : String) (p : ℚ) (hmem : (t, p) ∈ l) :
    (reconcileActions currMap l).filter (fun a => a.ticker == t)
      = (if |p - (dlookup currMap t).getD 0| < 1 then []
         else if 0 < p - (dlookup currMap t).getD 0 then
           [⟨"Increase", t, round2 (p - (dlookup currMap t).getD 0)⟩]
         else [⟨"Reduce", t, |round2 (p - (dlookup currMap t).getD 0)|⟩]) := by
  induction l with
  | nil => cases hmem
  | cons q rest ih =>
    obtain ⟨tq, pq⟩ := q
    have hnd2 : tq ∉ rest.map Prod.fst ∧ (rest.map Prod.fst).Nodup := by
      simpa using List.nodup_cons.mp hnd
    rcases List.mem_cons.mp hmem with h | h
    · obtain ⟨h1, h2⟩ := Prod.mk.injEq .. ▸ h
      subst h1
      subst h2
      unfold reconcileActions
      by_cases hlt : |p - (dlookup currMap t).getD 0| < 1
      · rw [if_pos hlt, if_pos hlt]
        exact reconcileActions_not_mem currMap rest t hnd2.1
      · rw [if_neg hlt, if_neg hlt]
        by_cases hpos : 0 < p - (dlookup currMap t).getD 0
        · rw [if_pos hpos, if_pos hpos,
            List.filter_cons_of_pos (by simp)]
          rw [reconcileActions_not_mem currMap rest t hnd2.1]
        · rw [if_neg hpos, if_neg hpos,
            List.filter_cons_of_pos (by simp)]
          rw [reconcileActions_not_mem currMap rest t hnd2.1]
    · have hne : tq ≠ t := by
        intro he
        exact hnd2.1 (he ▸ List.mem_map.mpr ⟨(t, p), h, rfl⟩)
      unfold reconcileActions
      by_cases hlt : |pq - (dlookup currMap tq).getD 0| < 1
      · rw [if_pos hlt]
        exact ih hnd2.2 h
      · rw [if_neg hlt]
        by_cases hpos : 0 < pq - (dlookup currMap tq).getD 0
        · rw [if_pos hpos, List.filter_cons_of_neg (by simpa using hne)]
          exact ih hnd2.2 h
        · rw [if_neg hpos, List.filter_cons_of_neg (by simpa using hne)]
          exact ih hnd2.2 h

/-- C3: for every ticker in the optimal allocation, with current percentage
taken as 0 when absent from the current allocation, no action is emitted when
`|optimal_pct - current_pct| < 1`, otherwise exactly one action is emitted:
Increase when the difference is positive, Reduce when negative, with
magnitude `|diff|`; tickers present only in the current allocation produce no
action.  (Percentages entering the reconciler are `round(_, 2)` outputs,
captured by the `TwoDec` hypotheses, so the display rounding is exact.) -/
theorem C3_reconciler (current optimal : List (String × ℚ))
    (hnd : (optimal.map Prod.fst).Nodup)
    (hopt : ∀ p ∈ optimal, TwoDec p.2)
    (hcur : ∀ t : String, TwoDec ((dlookup (currPctMap current) t).getD 0)) :
    (∀ t p, (t, p) ∈ optimal →
      (|p - (dlookup (currPctMap current) t).getD 0| < 1 →
        (reconcile current optimal).filter (fun a => a.ticker == t) = [])
      ∧ (1 ≤ p - (dlookup (currPctMap current) t).getD 0 →
        (reconcile current optimal).filter (fun a => a.ticker == t)
          = [⟨"Increase", t, p - (dlookup (currPctMap current) t).getD 0⟩])
      ∧ (p - (dlookup (currPctMap current) t).getD 0 ≤ -1 →
        (reconcile current optimal).filter (fun a => a.ticker == t)
          = [⟨"Reduce", t, -(p - (dlookup (currPctMap current) t).getD 0)⟩]))
    ∧ (∀ t, t ∉ optimal.map Prod.fst →
        (reconcile current optimal).filter (fun a => a.ticker == t) = []) := by
  constructor
  · intro t p hmem
    have hd2 : TwoDec (p - (dlookup (currPctMap current) t).getD 0) :=
      (hopt (t, p) hmem).sub (hcur t)
    have key := reconcileActions_filter_eq (currPctMap current) optimal hnd t p hmem
    refine ⟨?_, ?_, ?_⟩
    · intro hlt
      rw [reconcile, key, if_pos hlt]
    · intro hge
      have hnlt : ¬ |p - (dlookup (currPctMap current) t).getD 0| < 1 :=
        not_lt.mpr (le_trans hge (le_abs_self _))
      have hpos : 0 < p - (dlookup (currPctMap current) t).getD 0 := by linarith
      rw [reconcile, key, if_neg hnlt, if_pos hpos, hd2.round2_fix]
    · intro hle
      have hnlt : ¬ |p - (dlookup (currPctMap current) t).getD 0| < 1 := by
        rw [not_lt, le_abs]
        exact Or.inr (by linarith)
      have hpos : ¬ 0 < p - (dlookup (currPctMap current) t).getD 0 :=
        not_lt.mpr (by linarith)
      rw [reconcile, key, if_neg hnlt, if_neg hpos, hd2.round2_fix,
        abs_of_nonpos (by linarith)]
  · intro t ht
    exact reconcileActions_not_mem (currPctMap current) optimal t ht

/-- Witness for C3 at the spec scenario: current `[A 40%]`, optimal
`[A 45%, B 10%]` gives Increase A by 5 and Increase B by 10; the materiality
case `[A 40.5%]` vs `[A 40%]` gives no action. -/
theorem C3_reconciler_witness :
    (reconcile [("A", 40)] [("A", 45), ("B", 10)]).filter (fun a => a.ticker == "A")
      = [⟨"Increase", "A", 5⟩]
    ∧ (reconcile [("A", 40)] [("A", 81/2)]).filter (fun a => a.ticker == "A") = [] := by
  have hcur : ∀ t : String, TwoDec ((dlookup (currPctMap [("A", (40 : ℚ))]) t).getD 0) := by
    intro t
    by_cases ht : t = "A"
    · subst ht
      exact ⟨4000, by norm_num [currPctMap, dinsert, dlookup, List.find?]⟩
    · have hbf : ("A" == t) = false := by
        simp only [beq_eq_false_iff_ne]
        exact fun he => ht he.symm
      exact ⟨0, by simp [currPctMap, dinsert, dlookup, List.find?, hbf]⟩
  have hc : (dlookup (currPctMap [("A", (40 : ℚ))]) "A").getD 0 = 40 := by
    norm_num [currPctMap, dinsert, dlookup, List.find?]
  constructor
  · have h := C3_reconciler [("A", 40)] [("A", 45), ("B", 10)] (by decide)
      (by
        intro p hp
        simp only [List.mem_cons, List.not_mem_nil, or_false] at hp
        rcases hp with rfl | rfl
        · exact ⟨4500, by norm_num⟩
        · exact ⟨1000, by norm_num⟩)
      hcur
    have h2 := (h.1 "A" 45 (by simp)).2.1
    rw [hc] at h2
    have h3 := h2 (by norm_num)
    rw [h3]
    norm_num
  · have h := C3_reconciler [("A", 40)] [("A", 81/2)] (by decide)
      (by
        intro p hp
        simp only [List.mem_cons, List.not_mem_nil, or_false] at hp
        rcases hp with rfl
        exact ⟨4050, by norm_num⟩)
      hcur
    have h1 := (h.1 "A" (81/2) (by simp)).1
    rw [hc] at h1
    exact h1 (by rw [abs_of_pos (by norm_num)]; norm_num)

/- ----------------------------------------------------------------- -/
/- `get_alpha_vantage_history_batch` (src/backend/app.py, lines 1164-1183)
   and the valid/failed split in the `/portfolio` route (lines 714-724).
   The per-ticker HTTP fetch and JSON parse become the oracle `av`:
   `some series` is a 200 response with a nonempty payload parsed into
   (date, adjusted close) pairs; `none` covers a non-200 status, a raised
   exception or an empty payload.  Dates are day ordinals in `ℤ`. -/

/-- The date-range filter at app.py line 1175. -/
def avFiltered (fromD toD : ℤ) (series : List (ℤ × ℚ)) : List (ℤ × ℚ) :=
  series.filter (fun p => decide (fromD ≤ p.1) && decide (p.1 ≤ toD))

/-- The body of the per-ticker loop of `get_alpha_vantage_history_batch`:
`some filtered` exactly when the ticker contributes a column. -/
def avProcess (av : String → Option (List (ℤ × ℚ))) (fromD toD : ℤ) (t : String) :
    Option (List (ℤ × ℚ)) :=
  match av t with
  | some series =>
    if (avFiltered fromD toD series).isEmpty then none
    else some (avFiltered fromD toD series)
  | none => none

/-- The per-ticker loop of `get_alpha_vantage_history_batch`: filter each
parsed series to the requested range, keep only tickers whose filtered
series is nonempty, isolate every failure to its own ticker. -/
def avBatch (av : String → Option (List (ℤ × ℚ))) (fromD toD : ℤ) :
    List String → List (String × List (ℤ × ℚ))
  | [] => []
  | t :: rest =>
    match avProcess av fromD toD t with
    | some filtered => (t, filtered) :: avBatch av fromD toD rest
    | none => avBatch av fromD toD rest

/-- The condition at app.py line 718: the ticker is a column of the batch
result and its series is nonempty after dropping NaN padding. -/
def hasSeriesData (batch : List (String × List (ℤ × ℚ))) (t : String) : Bool :=
  match dlookup batch t with
  | some s => !s.isEmpty
  | none => false

/-- `valid_holdings` (app.py lines 714-721). -/
def validHoldings (batch : List (String × List (ℤ × ℚ))) (holdings : List MHolding) :
    List MHolding :=
  holdings.filter (fun h => hasSeriesData batch h.ticker)

/-- `failed_tickers` (app.py lines 714-721). -/
def failedTickers (batch : List (String × List (ℤ × ℚ))) (holdings : List MHolding) :
    List String :=
  (holdings.filter (fun h => !hasSeriesData batch h.ticker)).map MHolding.ticker

/-- The guard at app.py lines 723-724: with no valid holdings the route
returns the explicit 400 error and optimization is not reached. -/
def portfolioGuard (batch : List (String × List (ℤ × ℚ))) (holdings : List MHolding) :
    Except String (List MHolding) :=
  if (validHoldings batch holdings).isEmpty then
    Except.error "No valid tickers found for optimization"
  else Except.ok (validHoldings batch holdings)

/-- Whether the route proceeds past the guard into the optimization code. -/
def optimizationAttempted (batch : List (String × List (ℤ × ℚ)))
    (holdings : List MHolding) : Bool :=
  !(validHoldings batch holdings).isEmpty

theorem avProcess_ne_nil (av : String → Option (List (ℤ × ℚ))) (fromD toD : ℤ)
    (t : String) (f : List (ℤ × ℚ)) (h : avProcess av fromD toD t = some f) : f ≠ [] := by
  cases hav : av t with
  | none => simp [avProcess, hav] at h
  | some series =>
    by_cases hf : (avFiltered fromD toD series).isEmpty
    · simp [avProcess, hav, hf] at h
    · simp only [avProcess, hav, if_neg hf, Option.some.injEq] at h
      subst h
      exact fun hnil => hf (by rw [hnil]; rfl)

theorem avProcess_congr (av av2 : String → Option (List (ℤ × ℚ))) (fromD toD : ℤ)
    (t : String) (hagree : av t = av2 t) :
    avProcess av fromD toD t = avProcess av2 fromD toD t := by
  unfold avProcess
  rw [hagree]

theorem avBatch_lookup_ne_nil (av : String → Option (List (ℤ × ℚ))) (fromD toD : ℤ)
    (ts : List String) (t : String) (s : List (ℤ × ℚ))
    (h : dlookup (avBatch av fromD toD ts) t = some s) : s ≠ [] := by
  induction ts with
  | nil => simp [avBatch, dlookup, List.find?] at h
  | cons u rest ih =>
    unfold avBatch at h
    cases hp : avProcess av fromD toD u with
    | none =>
      rw [hp] at h
      exact ih h
    | some filtered =>
      rw [hp] at h
      by_cases hu : (u == t) = true
      · have ht : u = t := by simpa using hu
        subst ht
        rw [dlookup_cons_self] at h
        cases h
        exact avProcess_ne_nil av fromD toD u s hp
      · rw [dlookup_cons_ne filtered _ (Bool.not_eq_true _ ▸ hu)] at h
        exact ih h

theorem avBatch_independent (av av2 : String → Option (List (ℤ × ℚ))) (fromD toD : ℤ)
    (ts : List String) (t : String) (hagree : av t = av2 t) :
    dlookup (avBatch av fromD toD ts) t = dlookup (avBatch av2 fromD toD ts) t := by
  induction ts with
  | nil => rfl
  | cons u rest ih =>
    unfold avBatch
    by_cases hu : u = t
    · subst hu
      rw [avProcess_congr av av2 fromD toD u hagree]
      cases hp : avProcess av2 fromD toD u with
      | none => exact ih
      | some filtered =>
        rw [dlookup_cons_self, dlookup_cons_self]
    · have hbf : (u == t) = false := by simp [hu]
      cases hp : avProcess av fromD toD u with
      | none =>
        cases hp2 : avProcess av2 fromD toD u with
        | none => exact ih
        | some filtered2 =>
          rw [dlookup_cons_ne filtered2 _ hbf]
          exact ih
      | some filtered =>
        cases hp2 : avProcess av2 fromD toD u with
        | none =>
          rw [dlookup_cons_ne filtered _ hbf]
          exact ih
        | some filtered2 =>
          rw [dlookup_cons_ne filtered _ hbf, dlookup_cons_ne filtered2 _ hbf]
          exact ih

/-- The batch call at app.py line 712: fetch history for every holding. -/
def portfolioBatch (av : String → Option (List (ℤ × ℚ))) (fromD toD : ℤ)
    (holdings : List MHolding) : List (String × List (ℤ × ℚ)) :=
  avBatch av fromD toD (holdings.map MHolding.ticker)

theorem hasSeriesData_false_lookup_none (av : String → Option (List (ℤ × ℚ)))
    (fromD toD : ℤ) (ts : List String) (t : String)
    (hs : hasSeriesData (avBatch av fromD toD ts) t = false) :
    dlookup (avBatch av fromD toD ts) t = none := by
  cases hl : dlookup (avBatch av fromD toD ts) t with
  | none => rfl
  | some s =>
    have hne := avBatch_lookup_ne_nil av fromD toD ts t s hl
    unfold hasSeriesData at hs
    rw [hl] at hs
    cases s with
    | nil => exact absurd rfl hne
    | cons a l => simp [List.isEmpty] at hs

/-- C5: historical-series aggregation isolates failures per ticker: every
requested holding either keeps its (nonempty, never zero-filled) series in
the batch result and lands in `valid_holdings`, or is omitted from the
result entirely and its ticker is reported in `failed_tickers`; and the
entry the batch holds for a ticker depends only on that ticker's own fetch
outcome, so one ticker's failure never alters the others. -/
theorem C5_per_ticker_isolation (av av2 : String → Option (List (ℤ × ℚ)))
    (fromD toD : ℤ) (holdings : List MHolding) :
    (∀ h ∈ holdings,
      (h ∈ validHoldings (portfolioBatch av fromD toD holdings) holdings
        ∧ dlookup (portfolioBatch av fromD toD holdings) h.ticker ≠ none)
      ∨ (h.ticker ∈ failedTickers (portfolioBatch av fromD toD holdings) holdings
        ∧ dlookup (portfolioBatch av fromD toD holdings) h.ticker = none))
    ∧ (∀ t, av t = av2 t →
        dlookup (portfolioBatch av fromD toD holdings) t
          = dlookup (portfolioBatch av2 fromD toD holdings) t) := by
  constructor
  · intro h hm
    by_cases hs : hasSeriesData (portfolioBatch av fromD toD holdings) h.ticker
    · left
      refine ⟨List.mem_filter.mpr ⟨hm, hs⟩, ?_⟩
      unfold hasSeriesData at hs
      cases hl : dlookup (portfolioBatch av fromD toD holdings) h.ticker with
      | none => rw [hl] at hs; cases hs
      | some s => exact fun hc => by cases hc
    · have hsf : hasSeriesData (portfolioBatch av fromD toD holdings) h.ticker = false :=
        Bool.not_eq_true _ ▸ hs
      right
      refine ⟨List.mem_map.mpr ⟨h, List.mem_filter.mpr ⟨hm, by simp [hsf]⟩, rfl⟩, ?_⟩
      exact hasSeriesData_false_lookup_none av fromD toD _ h.ticker hsf
  · intro t hagree
    exact avBatch_independent av av2 fromD toD _ t hagree

/-- Witness for C5 at a concrete input: "AAPL" resolves, "ZZZZ" does not;
"ZZZZ" is omitted and reported failed, and the oracle disagreeing only on
"ZZZZ" leaves the "AAPL" entry unchanged. -/
theorem C5_per_ticker_isolation_witness :
    ((MHolding.mk "ZZZZ" 1 (some 10) none ∈ validHoldings
        (portfolioBatch (fun t => if t = "AAPL" then some [((5 : ℤ), (100 : ℚ))] else none)
          0 10 [MHolding.mk "AAPL" 1 (some 10) none, MHolding.mk "ZZZZ" 1 (some 10) none])
        [MHolding.mk "AAPL" 1 (some 10) none, MHolding.mk "ZZZZ" 1 (some 10) none]
      ∧ dlookup (portfolioBatch (fun t => if t = "AAPL" then some [((5 : ℤ), (100 : ℚ))] else none)
          0 10 [MHolding.mk "AAPL" 1 (some 10) none, MHolding.mk "ZZZZ" 1 (some 10) none])
          "ZZZZ" ≠ none)
    ∨ ("ZZZZ" ∈ failedTickers
        (portfolioBatch (fun t => if t = "AAPL" then some [((5 : ℤ), (100 : ℚ))] else none)
          0 10 [MHolding.mk "AAPL" 1 (some 10) none, MHolding.mk "ZZZZ" 1 (some 10) none])
        [MHolding.mk "AAPL" 1 (some 10) none, MHolding.mk "ZZZZ" 1 (some 10) none]
      ∧ dlookup (portfolioBatch (fun t => if t = "AAPL" then some [((5 : ℤ), (100 : ℚ))] else none)
          0 10 [MHolding.mk "AAPL" 1 (some 10) none, MHolding.mk "ZZZZ" 1 (some 10) none])
          "ZZZZ" = none)) :=
  (C5_per_ticker_isolation
    (fun t => if t = "AAPL" then some [((5 : ℤ), (100 : ℚ))] else none)
    (fun t => if t = "AAPL" then some [((5 : ℤ), (100 : ℚ))] else none) 0 10
    [MHolding.mk "AAPL" 1 (some 10) none, MHolding.mk "ZZZZ" 1 (some 10) none]).1
    (MHolding.mk "ZZZZ" 1 (some 10) none) (by decide)

/-- C2 counterexample: a holdings list with exactly ONE valid ticker (fewer
than 2) passes the guard at app.py line 723, so optimization IS attempted
with fewer than 2 valid tickers. -/
theorem C2_counterexample :
    (validHoldings
        (portfolioBatch (fun _ => some [((5 : ℤ), (100 : ℚ))]) 0 10
          [MHolding.mk "AAPL" 1 (some 10) none])
        [MHolding.mk "AAPL" 1 (some 10) none]).length = 1
    ∧ (1 : ℕ) < 2
    ∧ optimizationAttempted
        (portfolioBatch (fun _ => some [((5 : ℤ), (100 : ℚ))]) 0 10
          [MHolding.mk "AAPL" 1 (some 10) none])
        [MHolding.mk "AAPL" 1 (some 10) none] = true := by
  decide

/-- C2 amended: optimization is not attempted only when ZERO valid tickers
remain (the route then returns the explicit user-facing error); any nonempty
valid set — including a single ticker, fewer than 2 — proceeds to
optimization. -/
theorem C2_zero_valid_guard (batch : List (String × List (ℤ × ℚ)))
    (holdings : List MHolding) :
    (optimizationAttempted batch holdings = false ↔ validHoldings batch holdings = [])
    ∧ (validHoldings batch holdings = [] →
        portfolioGuard batch holdings
          = Except.error "No valid tickers found for optimization")
    ∧ (validHoldings batch holdings ≠ [] →
        portfolioGuard batch holdings = Except.ok (validHoldings batch holdings)) := by
  refine ⟨?_, ?_, ?_⟩
  · unfold optimizationAttempted
    cases hv : validHoldings batch holdings with
    | nil => simp
    | cons a l => simp [List.isEmpty]
  · intro h0
    unfold portfolioGuard
    rw [h0]
    rfl
  · intro h0
    unfold portfolioGuard
    cases hv : validHoldings batch holdings with
    | nil => exact absurd hv h0
    | cons a l => simp [List.isEmpty]

/-- Witness for the amended C2: a batch that resolves nothing leads to the
explicit error and no optimization attempt. -/
theorem C2_zero_valid_guard_witness :
    portfolioGuard (portfolioBatch (fun _ => none) 0 10 [MHolding.mk "AAPL" 1 (some 10) none])
        [MHolding.mk "AAPL" 1 (some 10) none]
      = Except.error "No valid tickers found for optimization" :=
  (C2_zero_valid_guard
    (portfolioBatch (fun _ => none) 0 10 [MHolding.mk "AAPL" 1 (some 10) none])
    [MHolding.mk "AAPL" 1 (some 10) none]).2.1 (by decide)

/- ----------------------------------------------------------------- -/
/- The target-volatility fallback ladder in the `/portfolio` route
   (src/backend/app.py, lines 741-773).  The pypfopt solver is an external
   collaborator (the spec's non-goals exclude its numerics), so its solves
   are oracles: `effRisk v` is `EfficientFrontier(mu, S).efficient_risk(v)`
   returning `some weights` on success and `none` when it raises;
   `minVolSolve` is `ef.min_volatility()` (its Python return value is a
   scalar or a dict, lines 757-760 extract a scalar from either shape);
   `maxSharpeSolve` is `ef.max_sharpe()`.  A `none` ladder outcome means an
   exception escaped to the route-level handler. -/

/-- The dynamic value `ef.min_volatility()` returns: a number or a dict. -/
inductive PyVal where
  | num (v : ℚ)
  | dict (entries : List (String × ℚ))
  deriving DecidableEq, Repr

/-- The extraction at app.py lines 757-760:
`min_vol.get('fun', list(min_vol.values())[0])` when the value is dict-like,
the value itself otherwise (`none` models the IndexError on an empty dict). -/
def minVolScalar : PyVal → Option ℚ
  | .num v => some v
  | .dict es =>
    match dlookup es "fun" with
    | some v => some v
    | none => (es.map Prod.snd).head?

/-- The warning recorded at app.py line 765. -/
def warnInfeasible (target mv : ℚ) : String :=
  "Requested target volatility " ++ toString target
    ++ " was too low. Used minimum achievable volatility "
    ++ toString mv ++ " instead."

/-- The warning recorded at app.py line 769. -/
def warnMaxSharpe : String :=
  "Could not achieve target volatility. Using maximum Sharpe ratio portfolio instead."

/-- The target-volatility selection at app.py lines 742-748. -/
def targetVolatilityFor (risk_tolerance : String) : Option ℚ :=
  if risk_tolerance = "Conservative" then some (10 / 100)
  else if risk_tolerance = "Aggressive" then none
  else some (15 / 100)

/-- The `(weights, used_volatility, warning_vol)` triple the ladder leaves
in scope after app.py lines 750-773. -/
structure LadderResult where
  weights : List (String × ℚ)
  used_volatility : Option ℚ
  warning_vol : Option String
  deriving DecidableEq, Repr

/-- The three-state fallback ladder (app.py lines 750-773): try the
requested target, on failure retry with the scalar extracted from the
minimum-variance solve, on failure again fall back to max-Sharpe.  `none`
means an exception escaped the ladder. -/
def volatilityLadder (effRisk : ℚ → Option (List (String × ℚ)))
    (minVolSolve : Option PyVal) (maxSharpeSolve : Option (List (String × ℚ)))
    (target : Option ℚ) : Option LadderResult :=
  match target with
  | none => maxSharpeSolve.map (fun w => ⟨w, none, none⟩)
  | some tv =>
    match effRisk tv with
    | some w => some ⟨w, some tv, none⟩
    | none =>
      match minVolSolve with
      | none => none
      | some mv =>
        match minVolScalar mv with
        | none => none
        | some mvv =>
          match effRisk mvv with
          | some w => some ⟨w, some mvv, some (warnInfeasible tv mvv)⟩
          | none => maxSharpeSolve.map (fun w => ⟨w, none, some warnMaxSharpe⟩)

/-- C1: for a TargetVolatility objective, when the requested target is
infeasible the ladder retries with the minimum achievable volatility from
the minimum-variance solve and records a human-readable warning; when that
retry also fails it falls back to max-Sharpe with a warning that volatility
targeting failed; and under the optimizer contract implied by the 2-valid-
ticker precondition (the minimum-variance and max-Sharpe solves succeed),
the ladder always produces a result, never an unhandled failure. -/
theorem C1_volatility_ladder (effRisk : ℚ → Option (List (String × ℚ)))
    (minv : ℚ) (maxW : List (String × ℚ)) (tv : ℚ) :
    (volatilityLadder effRisk (some (PyVal.num minv)) (some maxW) (some tv)).isSome = true
    ∧ (∀ wB, effRisk tv = none → effRisk minv = some wB →
        volatilityLadder effRisk (some (PyVal.num minv)) (some maxW) (some tv)
          = some ⟨wB, some minv, some (warnInfeasible tv minv)⟩)
    ∧ (effRisk tv = none → effRisk minv = none →
        volatilityLadder effRisk (some (PyVal.num minv)) (some maxW) (some tv)
          = some ⟨maxW, none, some warnMaxSharpe⟩)
    ∧ (∀ wA, effRisk tv = some wA →
        volatilityLadder effRisk (some (PyVal.num minv)) (some maxW) (some tv)
          = some ⟨wA, some tv, none⟩) := by
  refine ⟨?_, ?_, ?_, ?_⟩
  · cases h1 : effRisk tv with
    | some w => simp [volatilityLadder, h1]
    | none =>
      cases h2 : effRisk minv with
      | some w => simp [volatilityLadder, h1, h2, minVolScalar]
      | none => simp [volatilityLadder, h1, h2, minVolScalar]
  · intro wB h1 h2
    simp [volatilityLadder, h1, h2, minVolScalar]
  · intro h1 h2
    simp [volatilityLadder, h1, h2, minVolScalar]
  · intro wA h1
    simp [volatilityLadder, h1]

/-- Witness for C1 at a concrete input where both efficient-risk solves
fail: the ladder degrades to the max-Sharpe portfolio with the warning. -/
theorem C1_volatility_ladder_witness :
    volatilityLadder (fun _ => none) (some (PyVal.num (1 / 10)))
        (some [("AAPL", 1)]) (some (15 / 100))
      = some ⟨[("AAPL", 1)], none, some warnMaxSharpe⟩ :=
  (C1_volatility_ladder (fun _ => none) (1 / 10) [("AAPL", 1)] (15 / 100)).2.2.1 rfl rfl

/- ----------------------------------------------------------------- -/
/- `groq_generate_content` (src/backend/app.py, lines 146-175) and the
   reduced-range retry ladder of `get_polygon_history_batch` (lines
   1138-1157).  Each API call outcome is an oracle indexed by the attempt
   number; wall-clock sleeps are recorded as a list of delays. -/

/-- Whether `pat` is an initial segment of the character list. -/
def leadsWith : List Char → List Char → Bool
  | [], _ => true
  | _ :: _, [] => false
  | p :: ps, t :: ts => p == t && leadsWith ps ts

/-- Python substring containment `pat in txt`. -/
def occursIn (pat : List Char) : List Char → Bool
  | [] => pat.isEmpty
  | c :: cs => leadsWith pat (c :: cs) || occursIn pat cs

/-- Python `str.lower()`. -/
def lowerChars (l : List Char) : List Char := l.map Char.toLower

/-- The transient-failure test at app.py line 162:
`'429' in error_msg or 'rate limit' in error_msg.lower()`. -/
def isRateLimitMsg (m : String) : Bool :=
  occursIn "429".data m.data || occursIn "rate limit".data (lowerChars m.data)

/-- Outcome of one Groq API call: the completion text, or the message of the
raised exception. -/
inductive GroqOutcome where
  | success (text : String)
  | failure (msg : String)
  deriving DecidableEq, Repr

/-- Observable behaviour of one run of the retry loop: the returned string,
the sequence of sleep delays, and how many API calls were made. -/
structure RunStats where
  result : String
  sleeps : List ℚ
  calls : ℕ
  deriving DecidableEq, Repr

/-- The `for attempt in range(retries)` loop of `groq_generate_content`
(app.py lines 147-175), with `fuel` the number of remaining iterations (so
`fuel = 0` inside an iteration means it is the last attempt).  A rate-limit
failure sleeps `delay` and doubles it; a non-transient failure returns the
explicit error string only on the last attempt and otherwise ALSO sleeps
and doubles the delay before retrying. -/
def groqRun (oracle : ℕ → GroqOutcome) : ℕ → ℕ → ℚ → RunStats
  | 0, _, _ => ⟨"Unable to generate AI analysis after multiple attempts", [], 0⟩
  | fuel + 1, attempt, delay =>
    match oracle attempt with
    | .success t => ⟨t, [], 1⟩
    | .failure m =>
      if isRateLimitMsg m then
        let r := groqRun oracle fuel (attempt + 1) (2 * delay)
        ⟨r.result, delay :: r.sleeps, r.calls + 1⟩
      else if fuel = 0 then
        ⟨"Unable to generate AI analysis due to: " ++ m, [], 1⟩
      else
        let r := groqRun oracle fuel (attempt + 1) (2 * delay)
        ⟨r.result, delay :: r.sleeps, r.calls + 1⟩

/-- `groq_generate_content(prompt, ..., retries, delay)` observable run. -/
def groq_generate_content (oracle : ℕ → GroqOutcome) (retries : ℕ) (delay : ℚ) : RunStats :=
  groqRun oracle retries 0 delay

/-- The doubling backoff schedule: `delay, 2*delay, 4*delay, ...`. -/
def geomSleeps (d : ℚ) (n : ℕ) : List ℚ := (List.range n).map (fun i => 2 ^ i * d)

/-- Outcome of one Polygon reduced-range request. -/
inductive PolyResp where
  | ok (closes : List ℚ)
  | rateLimited
  | httpError (code : ℕ)
  | exn
  deriving DecidableEq, Repr

/-- Observable behaviour of the reduced-range ladder. -/
structure PolyStats where
  data : Option (List ℚ)
  sleeps : List ℚ
  attempts : ℕ
  deriving DecidableEq, Repr

/-- The `for attempt in range(3)` ladder of `get_polygon_history_batch`
(app.py lines 1138-1155): break on a 200 with nonempty results; sleep a
FIXED 5 seconds on a 429; no sleep on another status; sleep 2 seconds on an
exception. -/
def polyLadder (oracle : ℕ → PolyResp) : ℕ → ℕ → PolyStats
  | 0, _ => ⟨none, [], 0⟩
  | fuel + 1, attempt =>
    match oracle attempt with
    | .ok closes =>
      if closes.isEmpty then
        let r := polyLadder oracle fuel (attempt + 1)
        ⟨r.data, r.sleeps, r.attempts + 1⟩
      else ⟨some closes, [], 1⟩
    | .rateLimited =>
      let r := polyLadder oracle fuel (attempt + 1)
      ⟨r.data, 5 :: r.sleeps, r.attempts + 1⟩
    | .httpError _ =>
      let r := polyLadder oracle fuel (attempt + 1)
      ⟨r.data, r.sleeps, r.attempts + 1⟩
    | .exn =>
      let r := polyLadder oracle fuel (attempt + 1)
      ⟨r.data, 2 :: r.sleeps, r.attempts + 1⟩

theorem geomSleeps_succ (d : ℚ) (n : ℕ) :
    geomSleeps d (n + 1) = d :: geomSleeps (2 * d) n := by
  unfold geomSleeps
  rw [List.range_succ_eq_map, List.map_cons, List.map_map]
  congr 1
  · norm_num
  · apply List.map_congr_left
    intro i _
    simp only [Function.comp]
    rw [pow_succ]
    ring

theorem groqRun_all_transient (oracle : ℕ → GroqOutcome)
    (h : ∀ i, ∃ m, oracle i = .failure m ∧ isRateLimitMsg m = true) :
    ∀ fuel attempt d, groqRun oracle fuel attempt d
      = ⟨"Unable to generate AI analysis after multiple attempts", geomSleeps d fuel, fuel⟩ := by
  intro fuel
  induction fuel with
  | zero => intro attempt d; rfl
  | succ n ih =>
    intro attempt d
    obtain ⟨m, hm, ht⟩ := h attempt
    rw [geomSleeps_succ]
    simp only [groqRun, hm, ht, if_pos, ih (attempt + 1) (2 * d)]

/-- C6 counterexample: with the Groq call failing non-transiently ("boom",
no 429 / rate-limit marker) on attempt 0 and succeeding on attempt 1, the
code makes 2 calls and returns the success text — a non-transient failure
is retried, not returned as an immediate explicit failure. -/
theorem C6_counterexample :
    (groq_generate_content
        (fun n => if n = 0 then GroqOutcome.failure "boom" else GroqOutcome.success "ok")
        3 1).calls = 2
    ∧ (groq_generate_content
        (fun n => if n = 0 then GroqOutcome.failure "boom" else GroqOutcome.success "ok")
        3 1).result = "ok"
    ∧ (2 : ℕ) ≠ 1 := by
  refine ⟨by decide, by decide, by decide⟩

/-- C6 amended: transient (429 / rate-limit) failures are retried up to the
configured maximum with the delay doubling on each attempt; a NON-transient
failure is retried with the same doubling backoff as well, and only a
non-transient failure on the final attempt returns the explicit error
immediately; the Polygon reduced-range ladder makes up to 3 attempts with a
FIXED 5-second delay on rate-limit responses (not an increasing delay). -/
theorem C6_retry_and_backoff (oracle : ℕ → GroqOutcome) (poracle : ℕ → PolyResp) :
    ((∀ i, ∃ m, oracle i = .failure m ∧ isRateLimitMsg m = true) →
      ∀ retries d, groq_generate_content oracle retries d
        = ⟨"Unable to generate AI analysis after multiple attempts",
            geomSleeps d retries, retries⟩)
    ∧ (∀ n a d m t, oracle a = .failure m → isRateLimitMsg m = false →
        oracle (a + 1) = .success t →
        groqRun oracle (n + 2) a d = ⟨t, [d], 2⟩)
    ∧ (∀ a d m, oracle a = .failure m → isRateLimitMsg m = false →
        groqRun oracle 1 a d = ⟨"Unable to generate AI analysis due to: " ++ m, [], 1⟩)
    ∧ ((∀ i, poracle i = .rateLimited) →
        ∀ a, polyLadder poracle 3 a = ⟨none, [5, 5, 5], 3⟩) := by
  refine ⟨?_, ?_, ?_, ?_⟩
  · intro h retries d
    exact groqRun_all_transient oracle h retries 0 d
  · intro n a d m t hm ht hs
    simp [groqRun, hm, ht, hs]
  · intro a d m hm ht
    simp [groqRun, hm, ht]
  · intro h a
    simp only [polyLadder, h a, h (a + 1), h (a + 2)]

/-- Witness for the amended C6 at concrete oracles: an always-429 Groq
oracle sleeps 1, 2, 4 seconds over 3 calls; a non-transient failure then a
success yields 2 calls with one sleep; a lone non-transient failure returns
the explicit error; an always-rate-limited Polygon oracle sleeps 5, 5, 5. -/
theorem C6_retry_and_backoff_witness :
    groq_generate_content (fun _ => GroqOutcome.failure "429") 3 1
      = ⟨"Unable to generate AI analysis after multiple attempts", geomSleeps 1 3, 3⟩
    ∧ groqRun (fun n => if n = 0 then GroqOutcome.failure "boom" else GroqOutcome.success "ok")
        2 0 1 = ⟨"ok", [1], 2⟩
    ∧ groqRun (fun _ => GroqOutcome.failure "boom") 1 0 1
      = ⟨"Unable to generate AI analysis due to: " ++ "boom", [], 1⟩
    ∧ polyLadder (fun _ => PolyResp.rateLimited) 3 0 = ⟨none, [5, 5, 5], 3⟩ := by
  have h := C6_retry_and_backoff (fun _ => GroqOutcome.failure "429")
    (fun _ => PolyResp.rateLimited)
  have h2 := C6_retry_and_backoff
    (fun n => if n = 0 then GroqOutcome.failure "boom" else GroqOutcome.success "ok")
    (fun _ => PolyResp.rateLimited)
  have h3 := C6_retry_and_backoff (fun _ => GroqOutcome.failure "boom")
    (fun _ => PolyResp.rateLimited)
  refine ⟨h.1 (fun i => ⟨"429", rfl, by decide⟩) 3 1, ?_, ?_, h.2.2.2 (fun i => rfl) 0⟩
  · exact h2.2.1 0 0 1 "boom" "ok" rfl (by decide) rfl
  · exact h3.2.2.1 0 1 "boom" rfl (by decide)

/- ----------------------------------------------------------------- -/
/- Merging AI-suggested tickers into the optimized allocation
   (src/backend/app.py, lines 908-948).  The regex
   `\b([A-Z]{2,5})\b` is embedded as: maximal runs of word characters
   (ASCII letters, digits, underscore) that consist of 2 to 5 uppercase
   letters.  The yfinance price lookup is the oracle `priceOf`; `none`
   covers both a missing `regularMarketPrice` and a raised exception. -/

/-- A regex word character (the ASCII core of `\w`). -/
def isWordChar (c : Char) : Bool := c.isAlpha || c.isDigit || c = '_'

/-- Accumulate maximal word-character runs (accumulator reversed). -/
def wordRunsAux : List Char → List Char → List (List Char)
  | [], acc => if acc.isEmpty then [] else [acc.reverse]
  | c :: cs, acc =>
    if isWordChar c then wordRunsAux cs (c :: acc)
    else if acc.isEmpty then wordRunsAux cs []
    else acc.reverse :: wordRunsAux cs []

/-- All maximal word-character runs of a text. -/
def wordRuns (text : List Char) : List (List Char) := wordRunsAux text []

/-- A run matching `\b([A-Z]{2,5})\b`: 2-5 characters, all uppercase. -/
def isTickerToken (r : List Char) : Bool :=
  decide (2 ≤ r.length) && decide (r.length ≤ 5)
    && r.all (fun c => decide ('A' ≤ c) && decide (c ≤ 'Z'))

/-- The matches of the ticker regex over the free text (app.py line 912). -/
def extractTickers (text : String) : List String :=
  ((wordRuns text.data).filter isTickerToken).map (fun r => String.mk r)

/-- The `ai_suggested` set (app.py lines 913-917): extracted tokens not in
the optimized set and not in the denylist, without duplicates. -/
def aiSuggested (text : String) (existing : List String) : List String :=
  ((extractTickers text).filter
    (fun t => !(existing.contains t) && !(t == "ETF" || t == "AI"))).dedup

/-- The per-ticker default allocation (app.py lines 918-924):
`round(min(15, 5 * n) / n, 2)` percentage points. -/
def perTickerPct (n : ℕ) : ℚ :=
  if n = 0 then 0 else round2 (min 15 (5 * (n : ℚ)) / (n : ℚ))

/-- One appended optimized-allocation entry (app.py lines 926-948). -/
structure OptEntry where
  ticker : String
  optimal_percentage : ℚ
  price : Option ℚ
  shares : ℤ
  deriving DecidableEq, Repr

/-- The loop body at app.py lines 926-948: resolve the price, compute the
whole-share count `int((pct/100 * total) // price)` when both price and
total are truthy, keep the ticker with a null price and zero shares
otherwise. -/
def mergeEntry (priceOf : String → Option ℚ) (total_value pct : ℚ) (t : String) : OptEntry :=
  match priceOf t with
  | some p =>
    { ticker := t, optimal_percentage := pct, price := some p,
      shares := if p ≠ 0 ∧ total_value ≠ 0 then ⌊pct / 100 * total_value / p⌋ else 0 }
  | none => { ticker := t, optimal_percentage := pct, price := none, shares := 0 }

/-- The entries appended to `optimized_allocation` for the AI suggestions. -/
def mergeSuggested (text : String) (existing : List String)
    (priceOf : String → Option ℚ) (total_value : ℚ) : List OptEntry :=
  (aiSuggested text existing).map
    (mergeEntry priceOf total_value (perTickerPct (aiSuggested text existing).length))

theorem roundHalfEven_le (x : ℚ) : (roundHalfEven x : ℚ) ≤ x + 1 / 2 := by
  unfold roundHalfEven
  dsimp only
  have hf : (⌊x⌋ : ℚ) ≤ x := Int.floor_le x
  split_ifs with h1 h2 h3
  · linarith
  · push_cast
    linarith
  · linarith
  · push_cast
    have hx : ¬ x - ⌊x⌋ < 1 / 2 := h1
    linarith [not_lt.mp hx]

theorem round2_le (x : ℚ) : round2 x ≤ x + 1 / 200 := by
  unfold round2
  have h := roundHalfEven_le (100 * x)
  linarith

/-- C7 counterexample: with 9 suggested tickers each receives
`round(15/9, 2) = 1.67` points, so the total added is `9 × 1.67 = 15.03`,
which EXCEEDS the claimed 15-point cap. -/
theorem C7_counterexample :
    ((mergeSuggested "AA BB CC DD EE FF GG HH II" [] (fun _ => none) 0).map
        OptEntry.optimal_percentage).sum = 1503 / 100
    ∧ ¬ ((1503 : ℚ) / 100 ≤ 15) := by
  constructor
  · have hs : aiSuggested "AA BB CC DD EE FF GG HH II" []
        = ["AA", "BB", "CC", "DD", "EE", "FF", "GG", "HH", "II"] := by decide
    have hp : perTickerPct 9 = 167 / 100 := by
      norm_num [perTickerPct, round2, roundHalfEven]
    unfold mergeSuggested
    rw [hs]
    norm_num [mergeEntry, hp]
  · norm_num

/-- C7 amended: exactly the all-caps 2-5 letter tokens outside the denylist
and the already-optimized set are added; each receives the same
`round(min(15, 5n)/n, 2)` percentage (an even split); a suggested ticker
whose price cannot be resolved is still included with a null price and zero
shares; and the total added is `n` times that rounded share — at most
`15 + n/200`, which can exceed 15 points by the rounding (15.03 for n = 9),
rather than never exceeding 15. -/
theorem C7_merge_semantics (text : String) (existing : List String)
    (priceOf : String → Option ℚ) (total_value : ℚ) :
    ((mergeSuggested text existing priceOf total_value).map OptEntry.ticker
      = aiSuggested text existing)
    ∧ (∀ e ∈ mergeSuggested text existing priceOf total_value,
        e.optimal_percentage = perTickerPct (aiSuggested text existing).length)
    ∧ (∀ t ∈ aiSuggested text existing, t ∉ existing ∧ t ≠ "ETF" ∧ t ≠ "AI")
    ∧ (∀ t ∈ aiSuggested text existing, priceOf t = none →
        OptEntry.mk t (perTickerPct (aiSuggested text existing).length) none 0
          ∈ mergeSuggested text existing priceOf total_value)
    ∧ ((mergeSuggested text existing priceOf total_value).map
        OptEntry.optimal_percentage).sum
      = ((aiSuggested text existing).length : ℚ)
          * perTickerPct (aiSuggested text existing).length
    ∧ ((aiSuggested text existing).length : ℚ)
        * perTickerPct (aiSuggested text existing).length
      ≤ 15 + ((aiSuggested text existing).length : ℚ) / 200 := by
  refine ⟨?_, ?_, ?_, ?_, ?_, ?_⟩
  · unfold mergeSuggested
    rw [List.map_map]
    have hcomp : OptEntry.ticker ∘
        mergeEntry priceOf total_value (perTickerPct (aiSuggested text existing).length)
        = id := by
      funext t
      simp only [Function.comp, id]
      cases hp : priceOf t <;> simp [mergeEntry, hp]
    rw [hcomp, List.map_id]
  · intro e he
    rcases List.mem_map.mp he with ⟨t, _, rfl⟩
    cases hp : priceOf t <;> simp [mergeEntry, hp]
  · intro t ht
    have ht2 := List.mem_filter.mp (List.mem_dedup.mp ht)
    have hb := ht2.2
    simp only [Bool.and_eq_true, Bool.not_eq_true', Bool.or_eq_false_iff,
      beq_eq_false_iff_ne] at hb
    exact ⟨by simpa using hb.1, hb.2.1, hb.2.2⟩
  · intro t ht hp
    refine List.mem_map.mpr ⟨t, ht, ?_⟩
    simp [mergeEntry, hp]
  · unfold mergeSuggested
    rw [List.map_map]
    have hcomp : OptEntry.optimal_percentage ∘
        mergeEntry priceOf total_value (perTickerPct (aiSuggested text existing).length)
        = Function.const String (perTickerPct (aiSuggested text existing).length) := by
      funext t
      simp only [Function.comp, Function.const]
      cases hp : priceOf t <;> simp [mergeEntry, hp]
    rw [hcomp, List.map_const, List.sum_replicate, nsmul_eq_mul]
  · rcases Nat.eq_zero_or_pos (aiSuggested text existing).length with h0 | hpos
    · rw [h0]
      norm_num [perTickerPct]
    · set n := (aiSuggested text existing).length with hn
      have hne : (n : ℚ) ≠ 0 := by

        exact_mod_cast Nat.pos_iff_ne_zero.mp hpos
      have hposq : (0 : ℚ) < n := by exact_mod_cast hpos
      have hpct : perTickerPct n = round2 (min 15 (5 * (n : ℚ)) / (n : ℚ)) := by
        unfold perTickerPct
        rw [if_neg (Nat.pos_iff_ne_zero.mp hpos)]
      have hr := round2_le (min 15 (5 * (n : ℚ)) / (n : ℚ))
      have hmin : min 15 (5 * (n : ℚ)) ≤ 15 := min_le_left _ _
      have h1 : (n : ℚ) * perTickerPct n
          ≤ (n : ℚ) * (min 15 (5 * (n : ℚ)) / (n : ℚ) + 1 / 200) := by
        rw [hpct]
        exact mul_le_mul_of_nonneg_left hr (le_of_lt hposq)
      have h2 : (n : ℚ) * (min 15 (5 * (n : ℚ)) / (n : ℚ) + 1 / 200)
          = min 15 (5 * (n : ℚ)) + (n : ℚ) / 200 := by
        field_simp
        ring
      rw [h2] at h1
      linarith

/-- Witness for the amended C7 at a concrete input: text with one valid
token "NVDA" plus denylisted and existing tokens; the price oracle fails, so
"NVDA" is still included with a null price, zero shares and 5 points. -/
theorem C7_merge_semantics_witness :
    ((mergeSuggested "Consider NVDA, the ETF, AI and AAPL." ["AAPL"]
        (fun _ => none) 1000).map OptEntry.ticker
      = aiSuggested "Consider NVDA, the ETF, AI and AAPL." ["AAPL"])
    ∧ OptEntry.mk "NVDA"
        (perTickerPct (aiSuggested "Consider NVDA, the ETF, AI and AAPL." ["AAPL"]).length)
        none 0
      ∈ mergeSuggested "Consider NVDA, the ETF, AI and AAPL." ["AAPL"] (fun _ => none) 1000 := by
  have h := C7_merge_semantics "Consider NVDA, the ETF, AI and AAPL." ["AAPL"]
    (fun _ => none) 1000
  exact ⟨h.1, h.2.2.2.1 "NVDA" (by decide) rfl⟩

end FinSense
